import Mathlib

/-!
Verification development for the row-streaming filename risk classifier
(`src/LocalRiskClassifier.py`).  The Python program is shallowly embedded:
strings become `String`/`List Char`, Python values that can appear in a
parsed model response become `Json`, Python exceptions become `PyErr`,
the model service is abstracted as an oracle `Nat → ModelOutcome`
(one outcome per input row), and the output CSV file is modelled at
record granularity as a list of `FileLine`s together with explicit
buffered/durable state tracking the per-row `flush()`/`os.fsync()` calls.
Python's `json.loads` is embedded as an executable fuel-indexed
recursive-descent parser; its error *messages* are abstracted (the shapes
and the raising conditions are faithful, the human-readable text of
`JSONDecodeError`/`TypeError` messages is not reproduced verbatim).
-/

namespace LRC

/-- Python values that can arise from `json.loads` on a model response.
Numbers are kept as a decimal mantissa/exponent pair (`num m e` denotes
`m * 10 ^ e`), which distinguishes ints (`e = 0` as parsed from an
integer literal) from floats without modelling IEEE arithmetic; no claim
performs numeric arithmetic.  `NaN`/`Infinity` literals (accepted by
Python's parser) are not modelled. -/
inductive Json where
  | null
  | bool (b : Bool)
  | num (mantissa : Int) (exp10 : Int)
  | str (s : String)
  | arr (elems : List Json)
  | obj (members : List (String × Json))

/-- Python exceptions relevant to the pipeline: `json.JSONDecodeError`
(a `ValueError`) from `json.loads`, `TypeError` from `str.join`, and any
exception raised by the `ollama` client call.  The carried string is the
exception's stringification `str(e)` (message text abstracted). -/
inductive PyErr where
  | jsonDecode (msg : String)
  | typeError (msg : String)
  | modelError (msg : String)
deriving DecidableEq, Repr

/-- Python `str(e)` for the exceptions modelled here. -/
def PyErr.toText : PyErr → String
  | .jsonDecode m => m
  | .typeError m => m
  | .modelError m => m

/-- Python regex `\s` on the ASCII range (the inputs of interest are
ASCII): space, tab, newline, carriage return, vertical tab, form feed. -/
def isPySpace (c : Char) : Bool :=
  c == ' ' || c == '\t' || c == '\n' || c == '\r' || c == '\x0b' || c == '\x0c'

/-- JSON whitespace accepted between tokens by Python's `json.loads`. -/
def isJsonWs (c : Char) : Bool :=
  c == ' ' || c == '\t' || c == '\n' || c == '\r'

def skipWsJ (cs : List Char) : List Char := cs.dropWhile isJsonWs

/-- Drop the literal pattern `p` from the front of `cs`; `none` when `cs`
does not start with `p`. -/
def stripPre : List Char → List Char → Option (List Char)
  | [], cs => some cs
  | _ :: _, [] => none
  | p :: ps, c :: cs => if p == c then stripPre ps cs else none

/-- Whether the literal pattern `pat` occurs as a contiguous subsequence
of `cs` (Python `pat in s`). -/
def hasSeq (pat : List Char) : List Char → Bool
  | [] => (stripPre pat ([] : List Char)).isSome
  | c :: cs => (stripPre pat (c :: cs)).isSome || hasSeq pat cs

/-- The characters of the fence marker searched for by the source's regex. -/
def fenceJson : List Char := "```json".data

/-- The closing fence characters. -/
def fenceClose : List Char := "```".data

/-- Does `cs` consist of greedily-consumed whitespace followed by the
closing fence?  This is exactly how the regex fragment `\s*` ++ fence
behaves here: a backtick is not whitespace, so `\s*` never has to give
characters back. -/
def wsThenFence (cs : List Char) : Bool :=
  (stripPre fenceClose (cs.dropWhile isPySpace)).isSome

/-- Lazy scan for the body of the regex group `{.*?}` (with `re.DOTALL`):
the shortest prefix `body` of `cs` such that `cs = body ++ '\x7d' :: rest`
with `rest` starting (modulo whitespace) with the closing fence. -/
def findClose : List Char → Option (List Char)
  | [] => none
  | c :: rest =>
    if c == '\x7d' && wsThenFence rest then some []
    else (findClose rest).map (fun b => c :: b)

/-- After the fence marker and the greedily-consumed `\s*`, the capture
group `({.*?})` must begin with an opening brace; its body is then found
by the lazy scan `findClose`. -/
def headBraceBody : List Char → Option (List Char)
  | [] => none
  | c :: rest3 =>
    if c == '\x7b' then (findClose rest3).map (fun body => '\x7b' :: (body ++ ['\x7d']))
    else none

/-- Attempt to match the source's regex pattern
three-backticks-json, `\s*`, `({.*?})`, `\s*`, three-backticks
anchored at the start of `cs`; on success, return the characters of
capture group 1 (the brace-delimited substring). -/
def matchFencedAt (cs : List Char) : Option (List Char) :=
  (stripPre fenceJson cs).bind (fun rest => headBraceBody (rest.dropWhile isPySpace))

/-- Embedding of `re.search(r'...'+fence pattern, text, re.DOTALL)` from
`clean_and_parse_json` (src line 68): the leftmost position at which the
whole pattern matches wins, and group 1 is returned. -/
def searchFenced : List Char → Option (List Char)
  | [] => none
  | c :: cs =>
    match matchFencedAt (c :: cs) with
    | some g => some g
    | none => searchFenced cs

/-- Python `s.find(ch)` as an index-or-`-1` over the character list:
index of the first occurrence. -/
def idxOfFrom (c : Char) : List Char → Option Nat
  | [] => none
  | x :: xs => if x == c then some 0 else (idxOfFrom c xs).map (· + 1)

/-- Python `text.find(c)`: first index of `c`, or `-1`. -/
def pyFindChar (cs : List Char) (c : Char) : Int :=
  match idxOfFrom c cs with
  | some n => (n : Int)
  | none => -1

/-- Python `text.rfind(c)`: last index of `c`, or `-1`. -/
def pyRfindChar (cs : List Char) (c : Char) : Int :=
  match idxOfFrom c cs.reverse with
  | some n => ((cs.length - 1 - n : Nat) : Int)
  | none => -1

/-- Resolve one bound of a Python slice `s[a:b]`: negative indices count
from the end and everything is clamped into `[0, len]`. -/
def resolveIdx (len : Nat) (i : Int) : Nat :=
  if i < 0 then ((len : Int) + i).toNat else min i.toNat len

/-- Python slice `s[a:b]` on a character list. -/
def pySlice (cs : List Char) (a b : Int) : List Char :=
  (cs.take (resolveIdx cs.length b)).drop (resolveIdx cs.length a)

/-- Hexadecimal digit value, for `\uXXXX` escapes. -/
def hexVal (c : Char) : Option Nat :=
  let n := c.toNat
  if 48 ≤ n && n ≤ 57 then some (n - 48)
  else if 97 ≤ n && n ≤ 102 then some (n - 87)
  else if 65 ≤ n && n ≤ 70 then some (n - 55)
  else none

/-- Body of a JSON string literal, after the opening quote: accumulate
characters (reversed in `acc`) until the closing quote, handling the
escape sequences of the JSON grammar and rejecting raw control
characters as Python's strict-mode parser does.  A `\uXXXX` escape
denoting a lone surrogate is out of `Char`'s range and is collapsed by
`Char.ofNat`'s fallback; no claim involves such escapes. -/
def parseStrBody : List Char → List Char → Option (String × List Char)
  | _, [] => none
  | acc, c :: rest =>
    if c == '"' then some (String.mk acc.reverse, rest)
    else if c == '\\' then
      match rest with
      | [] => none
      | e :: rest2 =>
        if e == '"' then parseStrBody ('"' :: acc) rest2
        else if e == '\\' then parseStrBody ('\\' :: acc) rest2
        else if e == '/' then parseStrBody ('/' :: acc) rest2
        else if e == 'b' then parseStrBody ('\x08' :: acc) rest2
        else if e == 'f' then parseStrBody ('\x0c' :: acc) rest2
        else if e == 'n' then parseStrBody ('\n' :: acc) rest2
        else if e == 'r' then parseStrBody ('\r' :: acc) rest2
        else if e == 't' then parseStrBody ('\t' :: acc) rest2
        else if e == 'u' then
          match rest2 with
          | h1 :: h2 :: h3 :: h4 :: rest6 =>
            match hexVal h1, hexVal h2, hexVal h3, hexVal h4 with
            | some a, some b, some c2, some d =>
              parseStrBody (Char.ofNat (((a * 16 + b) * 16 + c2) * 16 + d) :: acc) rest6
            | _, _, _, _ => none
          | _ => none
        else none
    else if c.toNat < 32 then none
    else parseStrBody (c :: acc) rest

/-- Value of a list of decimal digit characters. -/
def digsToNat (ds : List Char) : Nat :=
  ds.foldl (fun a c => a * 10 + (c.toNat - 48)) 0

/-- Optional fraction part `.digits` of a JSON number; returns the digit
characters (empty when there is no fraction part). -/
def parseFracPart : List Char → Option (List Char × List Char)
  | '.' :: r =>
    let ds := r.takeWhile Char.isDigit
    if ds.isEmpty then none else some (ds, r.dropWhile Char.isDigit)
  | cs => some ([], cs)

/-- Optional exponent part `[eE][+-]?digits` of a JSON number. -/
def parseExpPart : List Char → Option (Int × List Char)
  | [] => some (0, [])
  | c :: r =>
    if c == 'e' || c == 'E' then
      let sr : Int × List Char :=
        match r with
        | '+' :: r2 => (1, r2)
        | '-' :: r2 => (-1, r2)
        | _ => (1, r)
      let ds := sr.2.takeWhile Char.isDigit
      if ds.isEmpty then none
      else some (sr.1 * (Int.ofNat (digsToNat ds)), sr.2.dropWhile Char.isDigit)
    else some (0, c :: r)

/-- JSON number per the grammar used by Python's `json` module:
`-?(0|[1-9][0-9]*)(\.[0-9]+)?([eE][+-]?[0-9]+)?`.  A leading `0`
followed by more digits stops after the `0`, exactly as in Python
(where the stray digits then trigger an error at the enclosing level). -/
def parseNumber (cs : List Char) : Option (Json × List Char) :=
  let sgn : Bool × List Char :=
    match cs with
    | '-' :: r => (true, r)
    | _ => (false, cs)
  match sgn.2 with
  | [] => none
  | c :: _ =>
    if !c.isDigit then none
    else
      let ip := if c == '0' then ['0'] else sgn.2.takeWhile Char.isDigit
      let cs2 := if c == '0' then sgn.2.tail else sgn.2.dropWhile Char.isDigit
      match parseFracPart cs2 with
      | none => none
      | some (fr, cs3) =>
        match parseExpPart cs3 with
        | none => none
        | some (ex, cs4) =>
          let mag : Int := Int.ofNat (digsToNat (ip ++ fr))
          some (.num (if sgn.1 then -mag else mag) (ex - (fr.length : Int)), cs4)

/-- Insert into / update a Python-dict-like association list: an existing
key keeps its position and gets the new value (so duplicate JSON object
keys resolve to the last value, as in Python), a new key is appended. -/
def dictSet (l : List (String × Json)) (k : String) (v : Json) : List (String × Json) :=
  match l with
  | [] => [(k, v)]
  | (k0, v0) :: rest => if k0 == k then (k, v) :: rest else (k0, v0) :: dictSet rest k v

/-- Python `d.get(k)` (without default) on the dict-like list. -/
def dictGet (l : List (String × Json)) (k : String) : Option Json :=
  match l with
  | [] => none
  | (k0, v0) :: rest => if k0 == k then some v0 else dictGet rest k

/-- Parsing mode for the single fuel-indexed parser function: a value, or
the member/element loops inside an object or array. -/
inductive PMode where
  | value
  | objItems (acc : List (String × Json))
  | arrItems (acc : List Json)

/-- Recursive-descent core of `json.loads`.  Fuel is structural so that
all results compute by `rfl`; `json_loads` supplies enough fuel for any
input.  Returns the parsed value and the unconsumed remainder. -/
def parseCore : Nat → PMode → List Char → Option (Json × List Char)
  | 0, _, _ => none
  | fuel + 1, .value, cs0 =>
    match skipWsJ cs0 with
    | [] => none
    | c :: rest =>
      if c == '"' then
        match parseStrBody [] rest with
        | some (s, cs2) => some (.str s, cs2)
        | none => none
      else if c == '\x7b' then
        match skipWsJ rest with
        | '\x7d' :: cs2 => some (.obj [], cs2)
        | _ => parseCore fuel (.objItems []) rest
      else if c == '[' then
        match skipWsJ rest with
        | ']' :: cs2 => some (.arr [], cs2)
        | _ => parseCore fuel (.arrItems []) rest
      else if c == 't' then (stripPre "rue".data rest).map (fun r => (.bool true, r))
      else if c == 'f' then (stripPre "alse".data rest).map (fun r => (.bool false, r))
      else if c == 'n' then (stripPre "ull".data rest).map (fun r => (.null, r))
      else parseNumber (c :: rest)
  | fuel + 1, .objItems acc, cs0 =>
    match skipWsJ cs0 with
    | '"' :: rest =>
      match parseStrBody [] rest with
      | none => none
      | some (key, cs2) =>
        match skipWsJ cs2 with
        | ':' :: cs3 =>
          match parseCore fuel .value cs3 with
          | none => none
          | some (v, cs4) =>
            match skipWsJ cs4 with
            | ',' :: cs5 => parseCore fuel (.objItems (dictSet acc key v)) cs5
            | '\x7d' :: cs5 => some (.obj (dictSet acc key v), cs5)
            | _ => none
        | _ => none
    | _ => none
  | fuel + 1, .arrItems acc, cs0 =>
    match parseCore fuel .value cs0 with
    | none => none
    | some (v, cs2) =>
      match skipWsJ cs2 with
      | ',' :: cs3 => parseCore fuel (.arrItems (acc ++ [v])) cs3
      | ']' :: cs3 => some (.arr (acc ++ [v]), cs3)
      | _ => none

/-- Embedding of Python `json.loads`: parse one JSON value, allow
surrounding whitespace, and reject trailing garbage.  Any failure is a
`JSONDecodeError` (a subclass of `ValueError`); its message text is
abstracted to a fixed summary. -/
def json_loads (s : String) : Except PyErr Json :=
  match parseCore (2 * s.data.length + 4) .value s.data with
  | none => .error (.jsonDecode "Expecting value")
  | some (v, rest) =>
    if (skipWsJ rest).isEmpty then .ok v else .error (.jsonDecode "Extra data")

/-- Embedding of `clean_and_parse_json` (src lines 62-75): search for the
fenced pattern; on a match parse capture group 1, otherwise parse the
Python slice `text[text.find(LBRACE) : text.rfind(RBRACE) + 1]` (with
Python's negative-index semantics when a brace is absent). -/
def clean_and_parse_json (text : String) : Except PyErr Json :=
  match searchFenced text.data with
  | some g => json_loads (String.mk g)
  | none =>
    json_loads (String.mk
      (pySlice text.data (pyFindChar text.data '\x7b') (pyRfindChar text.data '\x7d' + 1)))

/-- Outcome of one `client.chat` interaction for one row, as far as the
pipeline can observe it: either the call raised an exception (transport,
timeout, service error, carried as its stringification), or the full
response text was obtained (in verbose mode, the concatenation of all
streamed chunks).  The model service itself is an external collaborator
(spec section 1), so it is abstracted as an oracle assigning an outcome
to each row index. -/
inductive ModelOutcome where
  | err (msg : String)
  | ok (text : String)

/-- Shape of the request `analyze_file_name_local` issues to the client
(src lines 86-104): whether it streams, and the optional `format`
constraint. -/
structure ChatRequest where
  stream : Bool
  format : Option String
deriving DecidableEq, Repr

/-- The request the Adapter issues for a given `(verbose, reasoning)`
configuration: verbose mode streams with no format constraint; otherwise
a single buffered call with `format='json'` exactly when `reasoning` is
off (src lines 86-104). -/
def chatRequestFor (verbose reasoning : Bool) : ChatRequest :=
  if verbose then ⟨true, none⟩
  else ⟨false, if !reasoning then some "json" else none⟩

/-- Prompt builder `get_analysis_prompt` (src lines 16-60).  The spec
(section 1) places the exact analyst-persona wording out of scope, so
the long template literals are abbreviated here; what is kept faithfully
is the structure: a reasoning-instructions block included exactly when
`reasoning` is set, the fixed rubric/schema text, the final-output
instruction included exactly when `reasoning` is not set, and the file
name embedded verbatim at the end. -/
def get_analysis_prompt (file_name : String) (reasoning : Bool) : String :=
  let reasoning_instructions :=
    if reasoning then
      "First, provide a step-by-step reasoning analysis of the filename. " ++
      "After your reasoning is complete, provide the final JSON object enclosed in " ++
      "```json markdown fences.\n"
    else ""
  let final_output_instructions :=
    "Based ONLY on the file name below, respond ONLY with a valid JSON object.\n"
  "You are a senior data security analyst at New York University.\n" ++
  reasoning_instructions ++
  "[risk score rubric, NYU data classification schema, examples]\n" ++
  (if !reasoning then final_output_instructions else "") ++
  "File Name to Analyze: \"" ++ file_name ++ "\""

/-- The per-row analysis record built by `analyze_file_name_local`
(the Python function always returns a dict with these three keys).
Values are Python values: parsed-JSON members or string sentinels. -/
structure AnalysisRes where
  risk_score : Json
  classification : Json
  data_type : Json

/-- The body of the `try` block after a successful `clean_and_parse_json`
together with the `except` handler (src lines 107-116): a parsed dict is
read permissively with `.get` defaults; any other parse result would make
`.get` raise `AttributeError`, which the same handler catches (that
branch is unreachable because every successfully parsed candidate starts
with a brace); a parse error is caught and recorded with sentinels. -/
def afterParse (parsed : Except PyErr Json) : AnalysisRes :=
  match parsed with
  | .error e => ⟨.str "Error", .str e.toText, .arr []⟩
  | .ok (.obj kvs) =>
    ⟨(dictGet kvs "risk_score").getD (.str "Parse Error"),
     (dictGet kvs "classification").getD (.str "Parse Error"),
     (dictGet kvs "data_type").getD (.arr [])⟩
  | .ok _ => ⟨.str "Error", .str "AttributeError", .arr []⟩

/-- Embedding of `analyze_file_name_local` (src lines 77-116).  An empty
file name short-circuits before the prompt is composed or the client is
invoked — accordingly the result does not depend on `outcome` (or on the
flags).  Otherwise the prompt is composed (pure, with no further effect
on the result), the client call's observable outcome is read from
`outcome`, and a raised exception or parse failure is caught at this
boundary and turned into a sentinel record. -/
def analyze_file_name_local (file_name : String) (outcome : ModelOutcome)
    (verbose reasoning : Bool) : AnalysisRes :=
  if file_name == "" then ⟨.str "N/A", .str "Empty Filename", .arr []⟩
  else
    let _prompt := get_analysis_prompt file_name reasoning
    let _request := chatRequestFor verbose reasoning
    match outcome with
    | .err m => ⟨.str "Error", .str m, .arr []⟩
    | .ok full_response => afterParse (clean_and_parse_json full_response)

/-- An input record as handed over by `csv.DictReader`: an ordered
mapping column-name to string value. -/
abbrev Row : Type := List (String × String)

/-- An output record as handed to `csv.DictWriter.writerow`: an ordered
mapping column-name to Python value (the three derived fields can carry
non-string parsed values, which the csv module stringifies on its own). -/
abbrev OutputRecord : Type := List (String × Json)

/-- Python `row.get(column, "")` (src line 148). -/
def rowGet (row : Row) (k : String) : String :=
  match row with
  | [] => ""
  | (k0, v0) :: rest => if k0 == k then v0 else rowGet rest k

/-- The input record viewed as a Python dict of string values. -/
def strRow (row : Row) : OutputRecord := row.map (fun p => (p.1, Json.str p.2))

/-- Check that all elements are Python `str`, returning them; `str.join`
raises `TypeError` on any non-`str` item. -/
def allStrs : List Json → Option (List String)
  | [] => some []
  | .str s :: rest => (allStrs rest).map (fun l => s :: l)
  | _ => none

/-- Python `', '.join(x)` on the values `x` that can appear as the
`data_type` field: joins a list of strings; iterating a `str` yields its
one-character strings; iterating a dict yields its keys (always strings
here); every other value is not iterable, and a list with a non-`str`
item is rejected — both raise `TypeError` (src line 152). -/
def pyJoinComma (x : Json) : Except PyErr String :=
  match x with
  | .arr elems =>
    match allStrs elems with
    | some ss => .ok (String.intercalate ", " ss)
    | none => .error (.typeError "sequence item: expected str instance")
  | .str s => .ok (String.intercalate ", " (s.data.map (fun c => String.mk [c])))
  | .obj kvs => .ok (String.intercalate ", " (kvs.map (fun p => p.1)))
  | _ => .error (.typeError "can only join an iterable")

/-- One iteration of the row loop (src lines 148-152), up to and
including the construction of the value written by `writerow`: read the
file name with default `""`, run the analysis (which never raises — its
exceptions are caught inside), merge the three derived fields into the
row dict in source order, where the `', '.join` of the `data_type` value
happens after the first two assignments and can raise `TypeError` — an
error here escapes the per-row handling. -/
def processRow (col : String) (v r : Bool) (row : Row) (outcome : ModelOutcome) :
    Except PyErr OutputRecord :=
  let file_name := rowGet row col
  let res := analyze_file_name_local file_name outcome v r
  let row1 := dictSet (strRow row) "Risk Score" res.risk_score
  let row2 := dictSet row1 "Classification" res.classification
  match pyJoinComma res.data_type with
  | .error e => .error e
  | .ok joined => .ok (dictSet row2 "Data Type" (.str joined))

/-- The sequence of records actually passed to `writerow`, starting at
row index `i0`: an uncaught per-row exception (the `TypeError` from
`join`) aborts the loop, so no further record is written. -/
def runRowsFrom (col : String) (v r : Bool) (oracle : Nat → ModelOutcome) :
    Nat → List Row → List OutputRecord
  | _, [] => []
  | i, row :: rest =>
    match processRow col v r row (oracle i) with
    | .error _ => []
    | .ok out => out :: runRowsFrom col v r oracle (i + 1) rest

/-- The records written by the whole run, in order. -/
def runRows (col : String) (v r : Bool) (oracle : Nat → ModelOutcome)
    (rows : List Row) : List OutputRecord :=
  runRowsFrom col v r oracle 0 rows

/-- Whether a row's processing completed without an uncaught exception. -/
def isOkB (e : Except PyErr OutputRecord) : Bool :=
  match e with
  | .ok _ => true
  | .error _ => false

/-- Decidable per-run condition: every row's `processRow` completes
without an uncaught exception (this can only fail at the `', '.join`,
src line 152). -/
def allRowsOk (col : String) (v r : Bool) (oracle : Nat → ModelOutcome)
    (rows : List Row) : Bool :=
  (List.range rows.length).all
    (fun i => isOkB (processRow col v r (rows.getD i []) (oracle i)))

/-- Whether a response text contains neither an opening nor a closing
brace (the premise of the unparseable-input property, spec section 8). -/
def braceFree (t : String) : Bool :=
  t.data.all (fun c => !(c == '\x7b' || c == '\x7d'))

/-- The value written for a row when its processing succeeded. -/
def okValue (e : Except PyErr OutputRecord) : OutputRecord :=
  match e with
  | .ok out => out
  | .error _ => []

/-- One complete line of the output CSV file, at record granularity:
the header line or one data row.  (`writerow` emits a full line; the
byte-level serialization belongs to the external `csv` module.) -/
inductive FileLine where
  | header (fields : List String)
  | record (out : OutputRecord)

/-- How the run ends, as reported to the user (src lines 136-157):
normal completion, the fatal missing-column report carrying the header's
actual field names, or the catch-all for an unexpected exception. -/
inductive Outcome where
  | success
  | columnNotFound (available : List String)
  | unexpected (e : PyErr)

/-- Observable result of a run: the durable (fsynced) file contents
after each completed row, the file contents once the run has ended and
the file is closed (closing flushes any still-buffered lines), and the
reported outcome. -/
structure RunResult where
  durableTrace : List (List FileLine)
  finalFile : List FileLine
  outcome : Outcome

/-- Opening the output path with mode `'w'` (src line 133) truncates
whatever was stored there before. -/
def openTruncate (_prev : List FileLine) : List FileLine := []

/-- The header written by `writeheader`: the input field names plus the
three derived columns, in fixed order (src line 139). -/
def outFields (fields : List String) : List String :=
  fields ++ ["Risk Score", "Classification", "Data Type"]

/-- The row loop with explicit file state (src lines 147-155): `durable`
is what has reached stable storage, `pending` what is buffered (the
header before the first row's flush).  Each successful row appends its
record and then `flush()` + `os.fsync()` makes everything durable before
the next row; an uncaught exception ends the loop and the `with` block
closes the file, flushing (but not fsyncing) whatever is buffered. -/
def mainLoop (col : String) (v r : Bool) (oracle : Nat → ModelOutcome) :
    Nat → List FileLine → List FileLine → List Row →
    List (List FileLine) × List FileLine × Outcome
  | _, durable, pending, [] => ([], durable ++ pending, Outcome.success)
  | i, durable, pending, row :: rest =>
    match processRow col v r row (oracle i) with
    | .error e => ([], durable ++ pending, Outcome.unexpected e)
    | .ok out =>
      let durable2 := durable ++ pending ++ [FileLine.record out]
      let res := mainLoop col v r oracle (i + 1) durable2 [] rest
      (durable2 :: res.1, res.2)

/-- Embedding of `main`'s processing (src lines 130-157), for an input
table already decoded into a header and rows (the csv codec is an
external collaborator): the output path (holding `prev`) is opened with
mode `'w'` — truncated — before anything else; then the field-name check
either aborts with the missing-column report (before the header or any
row is written) or the header is buffered and the row loop runs. -/
def mainRun (prev : List FileLine) (fields : List String) (rows : List Row)
    (col : String) (v r : Bool) (oracle : Nat → ModelOutcome) : RunResult :=
  let disk0 := openTruncate prev
  if col ∈ fields then
    let res := mainLoop col v r oracle 0 disk0 [FileLine.header (outFields fields)] rows
    ⟨res.1, res.2.1, res.2.2⟩
  else
    ⟨[], disk0, Outcome.columnNotFound fields⟩

/-- Spec-side definition, following the words of claim C2 (spec section
4.3 steps 1-2): the enclosed substring of the first fenced block
delimited by the JSON fence marker — everything between the marker and
the next closing fence, with no requirement on its shape. -/
def takeUntilFence : List Char → Option (List Char)
  | [] => none
  | c :: cs =>
    if (stripPre fenceClose (c :: cs)).isSome then some []
    else (takeUntilFence cs).map (fun b => c :: b)

/-- Spec-side search for the first fenced block's enclosed substring,
per the claim's words. -/
def searchEnclosed : List Char → Option (List Char)
  | [] => none
  | c :: cs =>
    match stripPre fenceJson (c :: cs) with
    | some rest => takeUntilFence rest
    | none => searchEnclosed cs

/-- Spec-side candidate selection, following the words of claim C2: if
the text contains a fenced block delimited by a JSON-language fence
marker, the enclosed substring is the candidate; otherwise the substring
from the first opening brace to the last closing brace, inclusive. -/
def specCandidate (text : String) : String :=
  match searchEnclosed text.data with
  | some enc => String.mk enc
  | none =>
    String.mk (pySlice text.data (pyFindChar text.data '\x7b') (pyRfindChar text.data '\x7d' + 1))

/-- Spec-side extraction, following the words of claim C2: the candidate
is then parsed as a JSON object. -/
def extract_spec (text : String) : Except PyErr Json :=
  json_loads (specCandidate text)

/-- The fenced-extraction example of spec section 8. -/
def fencedEx : String :=
  "some reasoning...\n```json\n\x7b\"risk_score\":9,\"classification\":\"High Risk (Level 3)\",\"data_type\":[\"PII\"]\x7d\n```"

/-- The bare-object-extraction example of spec section 8. -/
def bareEx : String :=
  "\x7b\"risk_score\":3,\"classification\":\"Low Risk (Level 1)\",\"data_type\":[]\x7d"

/-- The missing-field-permissiveness example of spec section 8. -/
def moderateEx : String :=
  "\x7b\"classification\":\"Moderate Risk (Level 2)\"\x7d"

/-- A response that is a valid JSON object whose `data_type` member is a
number: extraction keeps the number as-is, and the `', '.join` in the
row loop then raises `TypeError`. -/
def dtNotSeq : String := "\x7b\"data_type\": 5\x7d"

/-- A response with a JSON-language fenced block whose enclosed content
is not brace-delimited, followed by a bare JSON object: the source's
regex does not match (its capture group requires braces), so the code
falls back to the first-to-last-brace slice and succeeds, while the
algorithm as worded in claim C2 would take the enclosed substring as the
candidate and fail to parse it. -/
def fencedNotJson : String := "```json\nnot json\n``` \x7b\"a\": 1\x7d"

/-- Characters surviving `stripPre` come from the original list. -/
theorem mem_of_stripPre :
    ∀ (p cs r : List Char), stripPre p cs = some r → ∀ a, a ∈ r → a ∈ cs := by
  intro p
  induction p with
  | nil =>
    intro cs r h a ha
    simp only [stripPre, Option.some.injEq] at h
    exact h ▸ ha
  | cons x ps ih =>
    intro cs r h a ha
    cases cs with
    | nil => simp [stripPre] at h
    | cons c cs2 =>
      simp only [stripPre] at h
      by_cases hx : (x == c) = true
      · rw [if_pos hx] at h
        exact List.mem_cons_of_mem _ (ih cs2 r h a ha)
      · rw [if_neg hx] at h
        cases h

/-- Characters surviving `dropWhile` come from the original list. -/
theorem mem_of_dropWhile :
    ∀ (p : Char → Bool) (cs : List Char) (a : Char), a ∈ cs.dropWhile p → a ∈ cs := by
  intro p cs
  induction cs with
  | nil => intro a ha; simp [List.dropWhile] at ha
  | cons c cs2 ih =>
    intro a ha
    simp only [List.dropWhile] at ha
    by_cases hc : p c = true
    · rw [hc] at ha
      exact List.mem_cons_of_mem _ (ih a ha)
    · rw [Bool.not_eq_true] at hc
      rw [hc] at ha
      exact ha

/-- The regex cannot match at a position when no opening brace occurs
anywhere after it: the capture group starts with one. -/
theorem matchFencedAt_eq_none (cs : List Char) (h : '\x7b' ∉ cs) :
    matchFencedAt cs = none := by
  unfold matchFencedAt
  cases hs : stripPre fenceJson cs with
  | none => rfl
  | some rest =>
    show headBraceBody (rest.dropWhile isPySpace) = none
    cases hd : rest.dropWhile isPySpace with
    | nil => rfl
    | cons c rest3 =>
      have hcmem : c ∈ cs := by
        refine mem_of_stripPre fenceJson cs rest hs c ?_
        refine mem_of_dropWhile isPySpace rest c ?_
        rw [hd]
        exact List.mem_cons_self c rest3
      have hcne : (c == '\x7b') = false := by
        rw [beq_eq_false_iff_ne]
        intro hcc
        exact h (hcc ▸ hcmem)
      simp [headBraceBody, hcne]

/-- `re.search` finds nothing when the text has no opening brace. -/
theorem searchFenced_eq_none_of_no_lbrace :
    ∀ cs : List Char, '\x7b' ∉ cs → searchFenced cs = none := by
  intro cs
  induction cs with
  | nil => intro _; rfl
  | cons c cs2 ih =>
    intro h
    have h2 : '\x7b' ∉ cs2 := fun hm => h (List.mem_cons_of_mem _ hm)
    simp only [searchFenced, matchFencedAt_eq_none (c :: cs2) h, ih h2]

/-- `re.search` finds nothing when the fence marker does not occur in
the text at all. -/
theorem searchFenced_eq_none_of_no_fence :
    ∀ cs : List Char, hasSeq fenceJson cs = false → searchFenced cs = none := by
  intro cs
  induction cs with
  | nil => intro _; rfl
  | cons c cs2 ih =>
    intro h
    simp only [hasSeq, Bool.or_eq_false_iff] at h
    have hs : stripPre fenceJson (c :: cs2) = none := by
      cases hs2 : stripPre fenceJson (c :: cs2) with
      | none => rfl
      | some r => rw [hs2] at h; simp [Option.isSome] at h
    have hm : matchFencedAt (c :: cs2) = none := by
      unfold matchFencedAt
      rw [hs]
      rfl
    simp only [searchFenced, hm, ih h.2]

/-- `idxOfFrom` finds nothing when the character does not occur. -/
theorem idxOfFrom_eq_none :
    ∀ (c : Char) (cs : List Char), c ∉ cs → idxOfFrom c cs = none := by
  intro c cs
  induction cs with
  | nil => intro _; rfl
  | cons x xs ih =>
    intro h
    have hx : (x == c) = false := by
      rw [beq_eq_false_iff_ne]
      intro hxc
      exact h (hxc ▸ List.mem_cons_self x xs)
    have h2 : c ∉ xs := fun hm => h (List.mem_cons_of_mem _ hm)
    simp only [idxOfFrom, hx, ih h2]
    rfl

/-- A Python slice with upper bound `0` is empty. -/
theorem pySlice_stop_zero (cs : List Char) (a : Int) : pySlice cs a 0 = [] := by
  simp [pySlice, resolveIdx]

/-- Core of the unparseable-input property: on a brace-free response
text the fenced search fails, `text.rfind` returns `-1`, the fallback
slice `text[find:0]` is empty, and `json.loads` of the empty string
raises. -/
theorem clean_error_of_braceFree (t : String) (h : braceFree t = true) :
    clean_and_parse_json t = .error (.jsonDecode "Expecting value") := by
  have hall : ∀ c ∈ t.data, ¬(c = '\x7b' ∨ c = '\x7d') := by
    intro c hc
    have := (List.all_eq_true.mp h) c hc
    simp only [Bool.not_eq_eq_eq_not, Bool.not_true, Bool.or_eq_false_iff,
      beq_eq_false_iff_ne] at this
    intro hor
    cases hor with
    | inl h1 => exact this.1 h1
    | inr h2 => exact this.2 h2
  have hnl : '\x7b' ∉ t.data := fun hm => hall '\x7b' hm (Or.inl rfl)
  have hnr : '\x7d' ∉ t.data := fun hm => hall '\x7d' hm (Or.inr rfl)
  have hsf : searchFenced t.data = none := searchFenced_eq_none_of_no_lbrace t.data hnl
  have hrf : pyRfindChar t.data '\x7d' = -1 := by
    have : '\x7d' ∉ t.data.reverse := by
      rw [List.mem_reverse]
      exact hnr
    simp only [pyRfindChar, idxOfFrom_eq_none '\x7d' t.data.reverse this]
  simp only [clean_and_parse_json, hsf, hrf]
  norm_num
  rw [pySlice_stop_zero]
  rfl

/-- A non-empty file name does not short-circuit: the analysis of a
captured response is the caught-at-this-boundary parse pipeline. -/
theorem analyze_of_ok (fname t : String) (v r : Bool) (hf : fname ≠ "") :
    analyze_file_name_local fname (.ok t) v r = afterParse (clean_and_parse_json t) := by
  simp [analyze_file_name_local, hf]

/-- A non-empty file name with a raising client call yields the sentinel
record carrying the stringified exception. -/
theorem analyze_of_err (fname m : String) (v r : Bool) (hf : fname ≠ "") :
    analyze_file_name_local fname (.err m) v r = ⟨.str "Error", .str m, .arr []⟩ := by
  simp [analyze_file_name_local, hf]

/-- `afterParse` on a successfully parsed object is the permissive
`.get`-with-default field extraction of src lines 110-112. -/
theorem afterParse_obj (kvs : List (String × Json)) :
    afterParse (.ok (.obj kvs)) =
      ⟨(dictGet kvs "risk_score").getD (.str "Parse Error"),
       (dictGet kvs "classification").getD (.str "Parse Error"),
       (dictGet kvs "data_type").getD (.arr [])⟩ := rfl

/-- Setting a key that is not yet present appends it, preserving the
order of the existing entries. -/
theorem dictSet_of_not_mem :
    ∀ (l : List (String × Json)) (k : String) (v : Json),
      k ∉ l.map Prod.fst → dictSet l k v = l ++ [(k, v)] := by
  intro l
  induction l with
  | nil => intro k v _; rfl
  | cons p rest ih =>
    intro k v h
    simp only [List.map_cons, List.mem_cons] at h
    push_neg at h
    have hne : (p.1 == k) = false := by
      rw [beq_eq_false_iff_ne]
      exact fun he => h.1 he.symm
    calc dictSet (p :: rest) k v
        = (p.1, p.2) :: dictSet rest k v := by
          simp only [dictSet, hne]
          rfl
      _ = p :: (rest ++ [(k, v)]) := by rw [ih k v h.2]
      _ = (p :: rest) ++ [(k, v)] := rfl

/-- The keys of the stringified input row are the input row's keys. -/
theorem strRow_keys (row : Row) : (strRow row).map Prod.fst = row.map Prod.fst := by
  simp [strRow, List.map_map]

/-- Merging the three derived fields into a row that does not already
use their column names appends them in source order (src lines 150-152),
provided the `', '.join` of the extracted `data_type` succeeds. -/
theorem processRow_eq_append (col : String) (v r : Bool) (row : Row)
    (outcome : ModelOutcome) (a b dt : Json) (s : String)
    (hres : analyze_file_name_local (rowGet row col) outcome v r = ⟨a, b, dt⟩)
    (hjoin : pyJoinComma dt = .ok s)
    (h1 : "Risk Score" ∉ row.map Prod.fst)
    (h2 : "Classification" ∉ row.map Prod.fst)
    (h3 : "Data Type" ∉ row.map Prod.fst) :
    processRow col v r row outcome =
      .ok (strRow row ++
        [("Risk Score", a), ("Classification", b), ("Data Type", Json.str s)]) := by
  have k1 : dictSet (strRow row) "Risk Score" a = strRow row ++ [("Risk Score", a)] := by
    refine dictSet_of_not_mem _ _ _ ?_
    rw [strRow_keys]
    exact h1
  have k2 : dictSet (strRow row ++ [("Risk Score", a)]) "Classification" b =
      strRow row ++ [("Risk Score", a)] ++ [("Classification", b)] := by
    refine dictSet_of_not_mem _ _ _ ?_
    simp only [List.map_append, List.mem_append, strRow_keys]
    rintro (hm | hm)
    · exact h2 hm
    · simp at hm
  have k3 : dictSet (strRow row ++ [("Risk Score", a)] ++ [("Classification", b)])
      "Data Type" (Json.str s) =
      strRow row ++ [("Risk Score", a)] ++ [("Classification", b)] ++
        [("Data Type", Json.str s)] := by
    refine dictSet_of_not_mem _ _ _ ?_
    simp only [List.map_append, List.mem_append, strRow_keys]
    rintro ((hm | hm) | hm)
    · exact h3 hm
    · simp at hm
    · simp at hm
  simp only [processRow, hres, k1, k2, k3, hjoin]
  simp [List.append_assoc]

/-- A successfully processed head row contributes its record and the
loop continues with the rest (src lines 147-155). -/
theorem runRowsFrom_cons_ok (col : String) (v r : Bool)
    (oracle : Nat → ModelOutcome) (i : Nat) (row : Row) (rest : List Row)
    (out : OutputRecord) (h : processRow col v r row (oracle i) = .ok out) :
    runRowsFrom col v r oracle i (row :: rest) =
      out :: runRowsFrom col v r oracle (i + 1) rest := by
  simp [runRowsFrom, h]

/-- When every row processes without an uncaught exception, the loop
writes exactly one record per input row, in input order. -/
theorem runRowsFrom_eq_map (col : String) (v r : Bool)
    (oracle : Nat → ModelOutcome) :
    ∀ (rows : List Row) (i0 : Nat),
      (∀ j, j < rows.length →
        isOkB (processRow col v r (rows.getD j []) (oracle (i0 + j))) = true) →
      runRowsFrom col v r oracle i0 rows =
        (List.range rows.length).map
          (fun j => okValue (processRow col v r (rows.getD j []) (oracle (i0 + j)))) := by
  intro rows
  induction rows with
  | nil => intro i0 _; rfl
  | cons row rest ih =>
    intro i0 h
    have h0 := h 0 (Nat.succ_pos _)
    cases hpr : processRow col v r row (oracle i0) with
    | error e =>
      rw [show ((row :: rest).getD 0 []) = row from rfl, Nat.add_zero, hpr] at h0
      simp [isOkB] at h0
    | ok out =>
      have hrec := ih (i0 + 1) (by
        intro j hj
        have := h (j + 1) (Nat.succ_lt_succ hj)
        rw [show ((row :: rest).getD (j + 1) []) = rest.getD j [] from rfl] at this
        rw [show i0 + (j + 1) = i0 + 1 + j by omega] at this
        exact this)
      rw [runRowsFrom_cons_ok col v r oracle i0 row rest out hpr, hrec]
      rw [List.length_cons, List.range_succ_eq_map, List.map_cons, List.map_map]
      congr 1
      · rw [show ((row :: rest).getD 0 []) = row from rfl, Nat.add_zero, hpr]
        rfl
      · refine List.map_congr_left ?_
        intro j _
        simp only [Function.comp_apply]
        rw [show ((row :: rest).getD (j + 1) []) = rest.getD j [] from rfl]
        rw [show i0 + 1 + j = i0 + (j + 1) by omega]

/-- The durable states recorded by the loop: one per completed row, the
`k`-th being everything durable or buffered at loop entry plus the first
`k+1` written records — each row's record reaches stable storage before
the next row starts. -/
theorem mainLoop_trace (col : String) (v r : Bool) (oracle : Nat → ModelOutcome) :
    ∀ (rows : List Row) (i0 : Nat) (durable pending : List FileLine),
      (mainLoop col v r oracle i0 durable pending rows).1 =
        (List.range (runRowsFrom col v r oracle i0 rows).length).map
          (fun k => durable ++ pending ++
            ((runRowsFrom col v r oracle i0 rows).take (k + 1)).map FileLine.record) := by
  intro rows
  induction rows with
  | nil => intro i0 durable pending; rfl
  | cons row rest ih =>
    intro i0 durable pending
    cases hpr : processRow col v r row (oracle i0) with
    | error e => simp [mainLoop, runRowsFrom, hpr]
    | ok out =>
      have hrun : runRowsFrom col v r oracle i0 (row :: rest) =
          out :: runRowsFrom col v r oracle (i0 + 1) rest :=
        runRowsFrom_cons_ok col v r oracle i0 row rest out hpr
      simp only [mainLoop, hpr, hrun]
      rw [ih (i0 + 1) (durable ++ pending ++ [FileLine.record out]) []]
      rw [List.length_cons, List.range_succ_eq_map, List.map_cons, List.map_map]
      apply congr_arg₂ List.cons
      · simp
      · refine List.map_congr_left ?_
        intro k _
        simp [Function.comp_apply, List.take_succ_cons]

/-- When every row processes without an uncaught exception, the loop
terminates normally and the closed file holds everything at loop entry
plus all written records. -/
theorem mainLoop_final (col : String) (v r : Bool) (oracle : Nat → ModelOutcome) :
    ∀ (rows : List Row) (i0 : Nat) (durable pending : List FileLine),
      (∀ j, j < rows.length →
        isOkB (processRow col v r (rows.getD j []) (oracle (i0 + j))) = true) →
      (mainLoop col v r oracle i0 durable pending rows).2.1 =
          durable ++ pending ++ (runRowsFrom col v r oracle i0 rows).map FileLine.record ∧
        (mainLoop col v r oracle i0 durable pending rows).2.2 = Outcome.success := by
  intro rows
  induction rows with
  | nil => intro i0 durable pending _; exact ⟨by simp [mainLoop, runRowsFrom], rfl⟩
  | cons row rest ih =>
    intro i0 durable pending h
    have h0 := h 0 (Nat.succ_pos _)
    cases hpr : processRow col v r row (oracle i0) with
    | error e =>
      rw [show ((row :: rest).getD 0 []) = row from rfl, Nat.add_zero, hpr] at h0
      simp [isOkB] at h0
    | ok out =>
      have hrec := ih (i0 + 1) (durable ++ pending ++ [FileLine.record out]) [] (by
        intro j hj
        have := h (j + 1) (Nat.succ_lt_succ hj)
        rw [show ((row :: rest).getD (j + 1) []) = rest.getD j [] from rfl] at this
        rw [show i0 + (j + 1) = i0 + 1 + j by omega] at this
        exact this)
      have hrun : runRowsFrom col v r oracle i0 (row :: rest) =
          out :: runRowsFrom col v r oracle (i0 + 1) rest :=
        runRowsFrom_cons_ok col v r oracle i0 row rest out hpr
      simp only [mainLoop, hpr, hrun]
      refine ⟨?_, hrec.2⟩
      rw [hrec.1]
      simp [List.append_assoc]

/-- `str.join` accepts a list of strings and returns their join. -/
theorem allStrs_map_str : ∀ ss : List String, allStrs (ss.map Json.str) = some ss := by
  intro ss
  induction ss with
  | nil => rfl
  | cons s rest ih => simp [allStrs, ih]

/-- Claim C1 (as stated, refuted): the claim says that for every input
table with N data rows and every sequence of model responses the run
writes exactly N output records.  Here is a 1-row table and a response
(a valid JSON object whose `data_type` member is the number 5) for which
the run writes 0 records: the `', '.join` on line 152 sits outside the
per-row `try`, raises `TypeError`, and aborts the whole run before the
row is written; the closed file holds only the header. -/
theorem c1_counterexample :
    ([[("file", "a.txt")]] : List Row).length = 1 ∧
    runRows "file" false false (fun _ => ModelOutcome.ok dtNotSeq) [[("file", "a.txt")]] = [] ∧
    (mainRun [] ["file"] [[("file", "a.txt")]] "file" false false
        (fun _ => ModelOutcome.ok dtNotSeq)).finalFile =
      [FileLine.header ["file", "Risk Score", "Classification", "Data Type"]] ∧
    (mainRun [] ["file"] [[("file", "a.txt")]] "file" false false
        (fun _ => ModelOutcome.ok dtNotSeq)).outcome =
      Outcome.unexpected (.typeError "can only join an iterable") :=
  ⟨rfl, rfl, rfl, rfl⟩

/-- Claim C1 (amended): for every input table and every sequence of
model responses for which each row's processing completes (in
particular, whenever every parsed `data_type` member is absent or a
sequence of strings, so the comma-join succeeds), the run writes exactly
one output record per input record, in the same relative order, no
record is dropped by a per-record failure, the final file is the header
followed by exactly those records, and the run reports success. -/
theorem c1_amended (prev : List FileLine) (fields : List String) (rows : List Row)
    (col : String) (v r : Bool) (oracle : Nat → ModelOutcome)
    (hcol : col ∈ fields) (hok : allRowsOk col v r oracle rows = true) :
    runRows col v r oracle rows =
        (List.range rows.length).map
          (fun j => okValue (processRow col v r (rows.getD j []) (oracle j))) ∧
      (runRows col v r oracle rows).length = rows.length ∧
      (mainRun prev fields rows col v r oracle).finalFile =
        FileLine.header (outFields fields) ::
          (runRows col v r oracle rows).map FileLine.record ∧
      (mainRun prev fields rows col v r oracle).outcome = Outcome.success := by
  have hptw : ∀ j, j < rows.length →
      isOkB (processRow col v r (rows.getD j []) (oracle (0 + j))) = true := by
    intro j hj
    have := List.all_eq_true.mp hok j (List.mem_range.mpr hj)
    rw [Nat.zero_add]
    exact this
  have hrun : runRows col v r oracle rows =
      (List.range rows.length).map
        (fun j => okValue (processRow col v r (rows.getD j []) (oracle j))) := by
    rw [runRows, runRowsFrom_eq_map col v r oracle rows 0 hptw]
    refine List.map_congr_left ?_
    intro j _
    rw [Nat.zero_add]
  have hfin := mainLoop_final col v r oracle rows 0 []
    [FileLine.header (outFields fields)] hptw
  refine ⟨hrun, ?_, ?_, ?_⟩
  · rw [hrun]
    simp
  · simp only [mainRun, openTruncate, if_pos hcol]
    rw [hfin.1]
    simp [runRows]
  · simp only [mainRun, openTruncate, if_pos hcol]
    exact hfin.2

/-- Claim C1 witness: a concrete 1-row run in which the hypotheses hold
and the theorem yields the row count and the success outcome. -/
theorem c1_amended_witness :
    (("file" : String) ∈ ["file"]) ∧
    allRowsOk "file" false false (fun _ => ModelOutcome.ok bareEx) [[("file", "a.txt")]] = true ∧
    (runRows "file" false false (fun _ => ModelOutcome.ok bareEx) [[("file", "a.txt")]]).length = 1 ∧
    (mainRun [] ["file"] [[("file", "a.txt")]] "file" false false
        (fun _ => ModelOutcome.ok bareEx)).outcome = Outcome.success := by
  have h := c1_amended [] ["file"] [[("file", "a.txt")]] "file" false false
    (fun _ => ModelOutcome.ok bareEx) (by decide) (by rfl)
  exact ⟨by decide, by rfl, h.2.1, h.2.2.2⟩

/-- Claim C2 (as stated, refuted): the claim says that whenever the text
contains a JSON-language fenced block, the enclosed substring is the
candidate, which is then parsed.  On this text the fenced block encloses
`not json`, so the claimed algorithm fails with a parse error, but the
source's regex (whose capture group requires a brace-delimited body)
does not match, falls back to the first-to-last-brace slice, and
succeeds. -/
theorem c2_counterexample :
    extract_spec fencedNotJson = .error (.jsonDecode "Expecting value") ∧
    clean_and_parse_json fencedNotJson = .ok (.obj [("a", Json.num 1 0)]) ∧
    extract_spec fencedNotJson ≠ clean_and_parse_json fencedNotJson := by
  refine ⟨rfl, rfl, ?_⟩
  intro h
  rw [show extract_spec fencedNotJson =
      Except.error (PyErr.jsonDecode "Expecting value") from rfl] at h
  rw [show clean_and_parse_json fencedNotJson =
      Except.ok (Json.obj [("a", Json.num 1 0)]) from rfl] at h
  cases h

/-- Claim C2 (amended): the fenced branch applies only when the regex
pattern matches — a ```json marker, optional whitespace, then a
brace-delimited substring whose closing brace is followed by optional
whitespace and a closing fence — and the candidate is that
brace-delimited capture group; whenever the text does not contain the
```json marker at all, the candidate is the substring from the first
opening brace to the last closing brace under Python slice semantics;
the candidate is then parsed as JSON.  The fenced and bare-object
examples of spec section 8 yield their stated structured results. -/
theorem c2_amended :
    (∀ t : String, hasSeq fenceJson t.data = false →
      clean_and_parse_json t =
        json_loads (String.mk
          (pySlice t.data (pyFindChar t.data '\x7b') (pyRfindChar t.data '\x7d' + 1)))) ∧
    clean_and_parse_json fencedEx =
      .ok (.obj [("risk_score", Json.num 9 0),
        ("classification", Json.str "High Risk (Level 3)"),
        ("data_type", Json.arr [Json.str "PII"])]) ∧
    clean_and_parse_json bareEx =
      .ok (.obj [("risk_score", Json.num 3 0),
        ("classification", Json.str "Low Risk (Level 1)"),
        ("data_type", Json.arr [])]) := by
  refine ⟨?_, rfl, rfl⟩
  intro t h
  have hsf := searchFenced_eq_none_of_no_fence t.data h
  simp only [clean_and_parse_json, hsf]

/-- Claim C2 witness: the bare-object example contains no fence marker,
so the theorem's fallback branch applies to it. -/
theorem c2_amended_witness :
    hasSeq fenceJson bareEx.data = false ∧
    clean_and_parse_json bareEx =
      json_loads (String.mk
        (pySlice bareEx.data (pyFindChar bareEx.data '\x7b')
          (pyRfindChar bareEx.data '\x7d' + 1))) :=
  ⟨rfl, c2_amended.1 bareEx rfl⟩

/-- Claim C3 (as stated, refuted): the claim says `data_type` is the
empty sequence whenever the parsed member is absent *or not a sequence*,
and that the row is still written.  On a response whose `data_type`
member is the number 5, the code keeps the number as-is (the `.get`
default only covers absence), and the row is *not* written — the join
aborts the run. -/
theorem c3_counterexample :
    (analyze_file_name_local "f.txt" (.ok dtNotSeq) false false).data_type = Json.num 5 0 ∧
    Json.num 5 0 ≠ Json.arr [] ∧
    runRows "file" false false (fun _ => ModelOutcome.ok dtNotSeq) [[("file", "f.txt")]] = [] := by
  refine ⟨rfl, ?_, rfl⟩
  intro h
  cases h

/-- Claim C3 (amended): for a response whose candidate parses as a JSON
object, the `data_type` of the analysis result is the empty sequence
when the member is absent; when the member is present its value is taken
as-is, whatever its type; and when that value is a sequence of strings
the comma-join succeeds with the joined labels (so the Data Type output
field is the comma-joined string and the row is written). -/
theorem c3_amended (t : String) (kvs : List (String × Json)) (fname : String)
    (v r : Bool) (hf : fname ≠ "")
    (hclean : clean_and_parse_json t = .ok (.obj kvs)) :
    (dictGet kvs "data_type" = none →
      (analyze_file_name_local fname (.ok t) v r).data_type = Json.arr []) ∧
    (∀ dv, dictGet kvs "data_type" = some dv →
      (analyze_file_name_local fname (.ok t) v r).data_type = dv) ∧
    (∀ ss : List String, dictGet kvs "data_type" = some (Json.arr (ss.map Json.str)) →
      pyJoinComma (analyze_file_name_local fname (.ok t) v r).data_type =
        .ok (String.intercalate ", " ss)) := by
  have hana : analyze_file_name_local fname (.ok t) v r =
      ⟨(dictGet kvs "risk_score").getD (.str "Parse Error"),
       (dictGet kvs "classification").getD (.str "Parse Error"),
       (dictGet kvs "data_type").getD (.arr [])⟩ := by
    rw [analyze_of_ok fname t v r hf, hclean, afterParse_obj]
  refine ⟨?_, ?_, ?_⟩
  · intro hnone
    rw [hana]
    simp [hnone]
  · intro dv hdv
    rw [hana]
    simp [hdv]
  · intro ss hss
    rw [hana]
    simp only [hss, Option.getD_some]
    simp [pyJoinComma, allStrs_map_str ss]

/-- Claim C3 witness: a present `data_type` member that is a sequence of
strings joins successfully. -/
theorem c3_amended_witness :
    clean_and_parse_json "\x7b\"data_type\": [\"PII\"]\x7d" =
      .ok (.obj [("data_type", Json.arr [Json.str "PII"])]) ∧
    pyJoinComma (analyze_file_name_local "f"
        (.ok "\x7b\"data_type\": [\"PII\"]\x7d") false false).data_type = .ok "PII" := by
  refine ⟨rfl, ?_⟩
  have h := c3_amended "\x7b\"data_type\": [\"PII\"]\x7d"
    [("data_type", Json.arr [Json.str "PII"])] "f" false false (by decide) rfl
  exact h.2.2 ["PII"] rfl

/-- Claim C4 (confirmed): the Adapter requests JSON-constrained output
exactly when both flags are off, streams exactly when `verbose` is on,
and with `reasoning` on but `verbose` off it issues a buffered call with
no format constraint (src lines 86-104). -/
theorem c4_request_modes :
    ∀ v r : Bool,
      ((chatRequestFor v r).format = some "json" ↔ (r = false ∧ v = false)) ∧
      ((chatRequestFor v r).stream = true ↔ v = true) ∧
      chatRequestFor false true = ⟨false, none⟩ := by
  decide

/-- Claim C4 witness: the three modes at their concrete flag values. -/
theorem c4_request_modes_witness :
    (chatRequestFor false false).format = some "json" ∧
    (chatRequestFor true false).stream = true ∧
    chatRequestFor false true = ⟨false, none⟩ :=
  ⟨(c4_request_modes false false).1.mpr ⟨rfl, rfl⟩,
   (c4_request_modes true false).2.1.mpr rfl,
   (c4_request_modes false true).2.2⟩

/-- Claim C5 (confirmed): a row whose filename field is the empty string
(which is what `row.get(col, "")` also yields when the key is missing)
produces its analysis without consulting the model — the result is the
same for every `outcome` the oracle could return and for all flags — and
the three appended output fields are exactly `N/A`, `Empty Filename` and
the empty string. -/
theorem c5_empty_filename (row : Row) (col : String) (outcome : ModelOutcome)
    (v r : Bool) (hempty : rowGet row col = "")
    (h1 : "Risk Score" ∉ row.map Prod.fst)
    (h2 : "Classification" ∉ row.map Prod.fst)
    (h3 : "Data Type" ∉ row.map Prod.fst) :
    analyze_file_name_local (rowGet row col) outcome v r =
        ⟨.str "N/A", .str "Empty Filename", .arr []⟩ ∧
      processRow col v r row outcome =
        .ok (strRow row ++ [("Risk Score", Json.str "N/A"),
          ("Classification", Json.str "Empty Filename"),
          ("Data Type", Json.str "")]) := by
  have hana : analyze_file_name_local (rowGet row col) outcome v r =
      ⟨.str "N/A", .str "Empty Filename", .arr []⟩ := by
    rw [hempty]
    rfl
  exact ⟨hana, processRow_eq_append col v r row outcome _ _ _ "" hana rfl h1 h2 h3⟩

/-- Claim C5 witness: a concrete empty-filename row, with an oracle that
would raise if it were ever consulted. -/
theorem c5_empty_filename_witness :
    rowGet [("file", "")] "file" = "" ∧
    (("Risk Score" : String) ∉ ([("file", "")] : Row).map Prod.fst) ∧
    processRow "file" false false [("file", "")] (ModelOutcome.err "service down") =
      .ok [("file", Json.str ""), ("Risk Score", Json.str "N/A"),
        ("Classification", Json.str "Empty Filename"), ("Data Type", Json.str "")] := by
  have h := c5_empty_filename [("file", "")] "file" (ModelOutcome.err "service down")
    false false rfl (by decide) (by decide) (by decide)
  exact ⟨rfl, by decide, h.2⟩

/-- Claim C6 (confirmed): a response with no brace at all makes the
Extractor raise the parse error (the fenced search fails and the
fallback slice is empty); the row loop catches it at the row boundary,
writes the row with risk score sentinel `Error`, the stringified error
as classification and an empty data type, and continues with the next
row. -/
theorem c6_unparseable (col : String) (v r : Bool) (oracle : Nat → ModelOutcome)
    (row : Row) (rest : List Row) (t : String)
    (hfn : rowGet row col ≠ "") (hor : oracle 0 = ModelOutcome.ok t)
    (hbf : braceFree t = true)
    (h1 : "Risk Score" ∉ row.map Prod.fst)
    (h2 : "Classification" ∉ row.map Prod.fst)
    (h3 : "Data Type" ∉ row.map Prod.fst) :
    clean_and_parse_json t = .error (.jsonDecode "Expecting value") ∧
    runRowsFrom col v r oracle 0 (row :: rest) =
      (strRow row ++ [("Risk Score", Json.str "Error"),
        ("Classification", Json.str "Expecting value"),
        ("Data Type", Json.str "")]) :: runRowsFrom col v r oracle 1 rest := by
  have hclean := clean_error_of_braceFree t hbf
  have hana : analyze_file_name_local (rowGet row col) (ModelOutcome.ok t) v r =
      ⟨.str "Error", .str "Expecting value", .arr []⟩ := by
    rw [analyze_of_ok _ t v r hfn, hclean]
    rfl
  have hpr := processRow_eq_append col v r row (ModelOutcome.ok t) _ _ _ "" hana rfl h1 h2 h3
  refine ⟨hclean, ?_⟩
  refine runRowsFrom_cons_ok col v r oracle 0 row rest _ ?_
  rw [hor]
  exact hpr

/-- Claim C6 witness: a concrete brace-free refusal text; the row is
written with the error sentinels. -/
theorem c6_unparseable_witness :
    rowGet [("file", "x.txt")] "file" ≠ "" ∧
    braceFree "I cannot comply" = true ∧
    runRowsFrom "file" false false (fun _ => ModelOutcome.ok "I cannot comply") 0
        [[("file", "x.txt")]] =
      [[("file", Json.str "x.txt"), ("Risk Score", Json.str "Error"),
        ("Classification", Json.str "Expecting value"), ("Data Type", Json.str "")]] := by
  have h := c6_unparseable "file" false false (fun _ => ModelOutcome.ok "I cannot comply")
    [("file", "x.txt")] [] "I cannot comply" (by decide) rfl (by rfl)
    (by decide) (by decide) (by decide)
  refine ⟨by decide, by rfl, ?_⟩
  rw [h.2]
  rfl

/-- Claim C7 (confirmed): whenever the candidate parses as a JSON
object, extraction does not raise: `risk_score` and `classification`
are the parsed members when present and the `Parse Error` sentinel when
absent; in particular the section 8 example with only a classification
yields the stated record. -/
theorem c7_permissive_fields :
    (∀ (t : String) (kvs : List (String × Json)) (fname : String) (v r : Bool),
      fname ≠ "" → clean_and_parse_json t = .ok (.obj kvs) →
      analyze_file_name_local fname (.ok t) v r =
        ⟨(dictGet kvs "risk_score").getD (.str "Parse Error"),
         (dictGet kvs "classification").getD (.str "Parse Error"),
         (dictGet kvs "data_type").getD (.arr [])⟩) ∧
    analyze_file_name_local "f" (.ok moderateEx) false false =
      ⟨.str "Parse Error", .str "Moderate Risk (Level 2)", .arr []⟩ := by
  constructor
  · intro t kvs fname v r hf hclean
    rw [analyze_of_ok fname t v r hf, hclean, afterParse_obj]
  · rfl

/-- Claim C7 witness: the universal part applied to the section 8
missing-field example. -/
theorem c7_permissive_fields_witness :
    (("f" : String) ≠ "") ∧
    clean_and_parse_json moderateEx =
      .ok (.obj [("classification", Json.str "Moderate Risk (Level 2)")]) ∧
    analyze_file_name_local "f" (.ok moderateEx) false false =
      ⟨(dictGet [("classification", Json.str "Moderate Risk (Level 2)")] "risk_score").getD
          (.str "Parse Error"),
       (dictGet [("classification", Json.str "Moderate Risk (Level 2)")]
          "classification").getD (.str "Parse Error"),
       (dictGet [("classification", Json.str "Moderate Risk (Level 2)")]
          "data_type").getD (.arr [])⟩ := by
  refine ⟨by decide, rfl, ?_⟩
  exact c7_permissive_fields.1 moderateEx
    [("classification", Json.str "Moderate Risk (Level 2)")] "f" false false (by decide) rfl

/-- Claim C8 (confirmed): when the requested filename column is absent
from the header, the run reports the header's actual column names and
terminates with no durable row ever written. -/
theorem c8_missing_column (prev : List FileLine) (fields : List String)
    (rows : List Row) (col : String) (v r : Bool) (oracle : Nat → ModelOutcome)
    (hcol : col ∉ fields) :
    (mainRun prev fields rows col v r oracle).outcome = Outcome.columnNotFound fields ∧
    (mainRun prev fields rows col v r oracle).durableTrace = [] := by
  simp [mainRun, openTruncate, hcol]

/-- Claim C8 witness: a concrete header without the requested column. -/
theorem c8_missing_column_witness :
    (("name" : String) ∉ ["file"]) ∧
    (mainRun [] ["file"] [[("file", "x")]] "name" false false
        (fun _ => ModelOutcome.err "e")).outcome = Outcome.columnNotFound ["file"] ∧
    (mainRun [] ["file"] [[("file", "x")]] "name" false false
        (fun _ => ModelOutcome.err "e")).durableTrace = [] := by
  have h := c8_missing_column [] ["file"] [[("file", "x")]] "name" false false
    (fun _ => ModelOutcome.err "e") (by decide)
  exact ⟨by decide, h.1, h.2⟩

/-- Claim C9 (confirmed): each written record is flushed and fsynced
before the next row begins, so the durable states between rows are
exactly: the header followed by the first `k+1` complete records, one
state per completed row, with no partial row (records are written as
complete lines; the header becomes durable with the first row's
flush). -/
theorem c9_durable_trace (prev : List FileLine) (fields : List String)
    (rows : List Row) (col : String) (v r : Bool) (oracle : Nat → ModelOutcome)
    (hcol : col ∈ fields) :
    (mainRun prev fields rows col v r oracle).durableTrace =
      (List.range (runRows col v r oracle rows).length).map
        (fun k => FileLine.header (outFields fields) ::
          ((runRows col v r oracle rows).take (k + 1)).map FileLine.record) := by
  simp only [mainRun, openTruncate, if_pos hcol]
  rw [mainLoop_trace col v r oracle rows 0 [] [FileLine.header (outFields fields)]]
  refine List.map_congr_left ?_
  intro k _
  simp [runRows]

/-- Claim C9 witness: a concrete 1-row run (the model errors, the row is
still written with sentinels) and its durable trace. -/
theorem c9_durable_trace_witness :
    (("file" : String) ∈ ["file"]) ∧
    (mainRun [] ["file"] [[("file", "a.txt")]] "file" false false
        (fun _ => ModelOutcome.err "down")).durableTrace =
      (List.range (runRows "file" false false (fun _ => ModelOutcome.err "down")
          [[("file", "a.txt")]]).length).map
        (fun k => FileLine.header (outFields ["file"]) ::
          ((runRows "file" false false (fun _ => ModelOutcome.err "down")
            [[("file", "a.txt")]]).take (k + 1)).map FileLine.record) :=
  ⟨by decide, c9_durable_trace [] ["file"] [[("file", "a.txt")]] "file" false false
    (fun _ => ModelOutcome.err "down") (by decide)⟩

/-- Claim C10 (confirmed): the output path is opened with mode `'w'` —
truncating whatever was there — before the missing-column check runs, so
the abort leaves an empty output file (no header, no data rows)
regardless of the path's previous contents. -/
theorem c10_truncated_on_abort (prev : List FileLine) (fields : List String)
    (rows : List Row) (col : String) (v r : Bool) (oracle : Nat → ModelOutcome)
    (hcol : col ∉ fields) :
    (mainRun prev fields rows col v r oracle).finalFile = openTruncate prev ∧
    openTruncate prev = [] ∧
    (mainRun prev fields rows col v r oracle).outcome = Outcome.columnNotFound fields := by
  simp [mainRun, openTruncate, hcol]

/-- Claim C10 witness: a path holding earlier content is left empty by
the aborted run. -/
theorem c10_truncated_on_abort_witness :
    (("name" : String) ∉ ["file"]) ∧
    (mainRun [FileLine.header ["old"]] ["file"] [] "name" false false
        (fun _ => ModelOutcome.err "e")).finalFile = [] ∧
    (mainRun [FileLine.header ["old"]] ["file"] [] "name" false false
        (fun _ => ModelOutcome.err "e")).outcome = Outcome.columnNotFound ["file"] := by
  have h := c10_truncated_on_abort [FileLine.header ["old"]] ["file"] [] "name"
    false false (fun _ => ModelOutcome.err "e") (by decide)
  exact ⟨by decide, h.2.1 ▸ h.1, h.2.2⟩

end LRC
